import Mathlib

/-!
Shallow embedding of percollate's `index.js` (the batch orchestrator,
output dispatcher, print-fragment extractor and article-extractor
adapter), together with theorems settling the specification claims.

External capabilities (network fetch via `got`, JSDOM parsing, the
Readability extractor, nunjucks templating, the `css` parser's AST,
`slugify`, `Date.now`, puppeteer rendering, `fs` writes, `epub-gen`)
are modelled as components of an environment record `Env`; the control
flow, error propagation and event order of `index.js` are embedded as
executable Lean functions producing a result together with a trace of
observable events.
-/

namespace Percollate

/-- An extracted article as produced by `Readability(...).parse()` :
title, byline, content, excerpt. -/
structure Parsed where
  title : String
  byline : Option String
  content : String
  excerpt : Option String
deriving Repr, DecidableEq

/-- The Article entity: the parsed result spread together with the
source url (`return { ...parsed, url }` in `cleanup`). -/
structure Article where
  title : String
  byline : Option String
  content : String
  excerpt : Option String
  url : String
deriving Repr, DecidableEq

/-- `{ ...parsed, url }` : all fields of the parsed result, with `url`
added (the spread's own `url` key wins, being written last). -/
def spreadWithUrl (p : Parsed) (url : String) : Article :=
  { title := p.title, byline := p.byline, content := p.content,
    excerpt := p.excerpt, url := url }

/-- Errors thrown by the embedded code.  `fetchFailed` models a `got`
network/HTTP rejection, `extractionFailed` a Readability failure,
`renderFailed` a `page.pdf` rejection, `typeError` a JS `TypeError`
(e.g. reading `.title` of `undefined`).  Note there is no `NoContent`
constructor: the source defines no such error. -/
inductive Err where
  | fetchFailed (url msg : String)
  | extractionFailed (url msg : String)
  | renderFailed (msg : String)
  | typeError (msg : String)
deriving Repr, DecidableEq

/-- Observable events, in program order. -/
inductive Ev where
  | spinnerFailed (msg : String)
  | fetched (url : String)
  | readabilityCall (classes : List String) (url : String)
  | bundleCalled (items : List Article)
  | wroteTempFile (path : String)
  | browserLaunched
  | savedPdf (path : String)
  | epubStarted (path : String) (title : String)
  | htmlWriteStarted (path : String)
  | consoleLogged (msg : String)
  | fileWritten (path content : String)
  | browserClosed
deriving Repr, DecidableEq

/-- A CSS declaration of the parsed stylesheet AST. -/
structure Decl where
  property : String
  value : String
deriving Repr, DecidableEq

/-- A CSS rule of the parsed stylesheet AST. -/
structure CssRule where
  selectors : List String
  declarations : List Decl
deriving Repr, DecidableEq

/-- The stylesheet AST: its list of rules. -/
abbrev Stylesheet := List CssRule

/-- A DOM element as far as the fragment logic observes it: its
inline `style` attribute (`getAttribute` returns null when absent,
modelled as `none`). -/
structure Elem where
  styleAttr : Option String
deriving Repr, DecidableEq

/-- The options object of one invocation: `{ individual, output,
style, css, template, sandbox }`.  Absent fields are `none`. -/
structure Options where
  individual : Bool := false
  output : Option String := none
  style : Option String := none
  css : Option String := none
  template : Option String := none
  sandbox : Bool := false
deriving Repr, DecidableEq

/-- JS `a || dflt` for an optional string: absent and the empty
string are both falsy. -/
def jsOrStr (s : Option String) (dflt : String) : String :=
  match s with
  | some t => if t = "" then dflt else t
  | none => dflt

/-- JS truthiness of an optional string value. -/
def jsTruthy (s : Option String) : Bool :=
  match s with
  | some t => !(t = "")
  | none => false

/-- The environment of external capabilities consumed by the core. -/
structure Env where
  /-- `got(url, headers)`: raw markup text or a network error. -/
  fetch : String → Except String String
  /-- `createDom` + `enhancePage`: the enhanced document, keyed by
  the originating url and the raw content (the enhancement passes are
  external to the embedded file). -/
  enhance : String → String → String
  /-- `new Readability(document, { classesToPreserve }).parse()`:
  parametrised by the class list the adapter passes. -/
  readability : List String → String → Except String Parsed
  /-- `tmp.tmpNameSync({ postfix: '.html' })`. -/
  tmpName : String
  /-- `fs.readFileSync(resolve(path), 'utf8')`. -/
  readFile : String → String
  /-- `nunjucks.renderString(template, { items, style, ... })`. -/
  renderTemplate : String → List Article → String → String
  /-- `new JSDOM(html).window.document.querySelector(sel)`: the inner
  HTML of the first match, or `none` when absent. -/
  querySelector : String → String → Option String
  /-- `css.parse(style)`. -/
  parseStylesheet : String → Stylesheet
  /-- `new JSDOM(frag).window.document.querySelector('body :first-child')`. -/
  parseFirstChild : String → Option Elem
  /-- `Date.now()`. -/
  now : Nat
  /-- `slugify`. -/
  slug : String → String
  /-- `page.pdf({ path, ... })`: resolves, or rejects with a message. -/
  pdfRender : String → Except String Unit
  /-- `page.evaluate(() => document.body.innerHTML)` on the loaded
  temporary file. -/
  evalBody : String → String
  /-- The error handed to the `fs.writeFile` callback in the html
  branch, when the asynchronous write fails. -/
  htmlWriteErr : Option String
  /-- The eventual outcome of the `epub-gen` assembly started by
  `new Epub(option, output_path)`; the dispatcher never consults it. -/
  epubOutcome : Except String Unit

/-- The class markers handed to Readability in `cleanup`. -/
def classesToPreserve : List String := ["no-href", "anchor"]

/-- `cleanup(url)`: fetch, enhance, extract; on any error the catch
block reports (`spinner.fail`) and re-throws. -/
def cleanup (env : Env) (url : String) : Except Err Article × List Ev :=
  match env.fetch url with
  | Except.error msg =>
      (Except.error (Err.fetchFailed url msg), [Ev.spinnerFailed msg])
  | Except.ok content =>
      match env.readability classesToPreserve (env.enhance url content) with
      | Except.error msg =>
          (Except.error (Err.extractionFailed url msg),
            [Ev.fetched url, Ev.readabilityCall classesToPreserve url,
              Ev.spinnerFailed msg])
      | Except.ok parsed =>
          (Except.ok (spreadWithUrl parsed url),
            [Ev.fetched url, Ev.readabilityCall classesToPreserve url])

/-- Modelled from the spec: `get-style-attribute-value.js` is not
under `src/`.  Per §4.5: find a rule whose selector is exactly the
given one, and join its declarations into a semicolon-separated
property string; the empty string when no rule matches. -/
def get_style_attribute_value (ast : Stylesheet) (sel : String) : String :=
  match ast.find? (fun r => sel ∈ r.selectors) with
  | some r =>
      String.intercalate ";"
        (r.declarations.map (fun d => d.property ++ ": " ++ d.value))
  | none => ""

/-- The header/footer fragment HTML:
`headerTemplate ? headerTemplate.innerHTML : '<span></span>'`. -/
def fragmentHTML (tmpl : Option String) : String :=
  match tmpl with
  | some t => t
  | none => "<span></span>"

/-- The template literal written into the `style` attribute: the
extracted declarations first, a semicolon, then the pre-existing
inline style, with the literal's tabs and newlines. -/
def mergeStyle (tmplStyle existing : String) : String :=
  "\n\t\t\t\t" ++ tmplStyle ++ ";\n\t\t\t\t" ++ existing ++ "\n\t\t\t"

/-- `if (header_div && header_style) header_div.setAttribute('style', ...)`:
the first child's style is rewritten only when both the div and a
truthy (non-empty) declaration string exist. -/
def styleFragmentDiv (hs : String) (div : Option Elem) : Option Elem :=
  match div with
  | none => none
  | some el =>
      if hs = "" then some el
      else some { el with
        styleAttr := some (mergeStyle hs (el.styleAttr.getD "")) }

/-- The print-fragment extraction for one selector (run once with
`.header-template` and once with `.footer-template` in `bundle`):
returns the fragment HTML and the (possibly restyled) first child. -/
def printFragment (env : Env) (html : String) (ast : Stylesheet)
    (sel : String) : String × Option Elem :=
  let frag := fragmentHTML (env.querySelector html sel)
  let hs := get_style_attribute_value ast sel
  (frag, styleFragmentDiv hs (env.parseFirstChild frag))

/-- The default artifact name when no output path is given:
`items.length === 1 ? slugify(items[0].title || 'Untitled page') + '.' + cmd
: 'percollate-' + Date.now() + '.' + cmd`. -/
def defaultOutputPath (env : Env) (cmd : String) (items : List Article) :
    String :=
  match items with
  | [a] => env.slug (if a.title = "" then "Untitled page" else a.title)
      ++ "." ++ cmd
  | _ => "percollate-" ++ toString env.now ++ "." ++ cmd

/-- `options.output || (...)`. -/
def output_path (env : Env) (cmd : String) (items : List Article)
    (options : Options) : String :=
  match options.output with
  | some p => if p = "" then defaultOutputPath env cmd items else p
  | none => defaultOutputPath env cmd items

/-- `bundle(items, options)`: compose the document, extract the print
fragments, stage the browser, name the output and dispatch on the
module-global command (threaded here as the `cmd` argument; its
globality is modelled separately by `runCmds`). -/
def bundle (env : Env) (cmd : String) (items : List Article)
    (options : Options) : Except Err Unit × List Ev :=
  let temp_file := env.tmpName
  let style := env.readFile (jsOrStr options.style "./templates/default.css")
      ++ (options.css.getD "")
  let html := env.renderTemplate
      (env.readFile (jsOrStr options.template "./templates/default.html"))
      items style
  let css_ast := env.parseStylesheet style
  let _header := printFragment env html css_ast ".header-template"
  let _footer := printFragment env html css_ast ".footer-template"
  let path := output_path env cmd items options
  let preEvs := [Ev.bundleCalled items, Ev.wroteTempFile temp_file,
    Ev.browserLaunched]
  if cmd = "pdf" then
    match env.pdfRender path with
    | Except.error msg => (Except.error (Err.renderFailed msg), preEvs)
    | Except.ok _ =>
        (Except.ok (), preEvs ++ [Ev.savedPdf path, Ev.browserClosed])
  else if cmd = "epub" then
    match items with
    | [] =>
        (Except.error
          (Err.typeError "Cannot read property title of undefined"), preEvs)
    | a :: _ =>
        (Except.ok (),
          preEvs ++ [Ev.epubStarted path a.title, Ev.browserClosed])
  else if cmd = "html" then
    let bodyHTML := env.evalBody temp_file
    let writeEvs :=
      match env.htmlWriteErr with
      | some e => [Ev.htmlWriteStarted path, Ev.consoleLogged e]
      | none => [Ev.htmlWriteStarted path, Ev.fileWritten path bodyHTML]
    (Except.ok (), preEvs ++ writeEvs ++ [Ev.browserClosed])
  else (Except.ok (), preEvs ++ [Ev.browserClosed])

/-- The `for (let url of urls)` loop of `generateOutput`, with the
accumulated `items`; note there is no try/catch around `cleanup`, so
its re-thrown error propagates out of the loop. -/
def processLoop (env : Env) (cmd : String) (options : Options) :
    List String → List Article → Except Err Unit × List Ev
  | [], items =>
      if options.individual then (Except.ok (), [])
      else bundle env cmd items options
  | url :: rest, items =>
      let c := cleanup env url
      match c.1 with
      | Except.error e => (Except.error e, c.2)
      | Except.ok item =>
          if options.individual then
            let b := bundle env cmd [item] options
            match b.1 with
            | Except.error e => (Except.error e, c.2 ++ b.2)
            | Except.ok _ =>
                let r := processLoop env cmd options rest items
                (r.1, c.2 ++ b.2 ++ r.2)
          else
            let r := processLoop env cmd options rest (items ++ [item])
            (r.1, c.2 ++ r.2)

/-- `generateOutput(urls, options)`: `if (!urls.length) return;` then
the per-url loop, then one merged `bundle` when not individual. -/
def generateOutput (env : Env) (cmd : String) (urls : List String)
    (options : Options) : Except Err Unit × List Ev :=
  match urls with
  | [] => (Except.ok (), [])
  | _ => processLoop env cmd options urls []

/-- `pdf(urls, options)`: sets the module-global command to `'pdf'`
and runs `generateOutput`. -/
def pdf (env : Env) (urls : List String) (options : Options) :
    Except Err Unit × List Ev :=
  generateOutput env "pdf" urls options

/-- `epub(urls, options)`. -/
def epub (env : Env) (urls : List String) (options : Options) :
    Except Err Unit × List Ev :=
  generateOutput env "epub" urls options

/-- `html(urls, options)`. -/
def html (env : Env) (urls : List String) (options : Options) :
    Except Err Unit × List Ev :=
  generateOutput env "html" urls options

/-- Is an event the invocation of the bundler? -/
def isBundleEv : Ev → Bool
  | Ev.bundleCalled _ => true
  | _ => false

/-!  A small shared-state model of the module-global `let cmd`:
each top-level operation first assigns `cmd` and each `bundle` it
triggers reads the global when naming and dispatching.  Atomic
actions are tagged with the id of the top-level call they belong to,
so that interleavings of two calls can be expressed. -/

/-- An atomic action on the global `cmd` variable. -/
inductive Act where
  | set (caller : Nat) (fmt : String)
  | use (caller : Nat)
deriving Repr, DecidableEq

/-- The action sequence of one top-level call (`pdf`/`epub`/`html`)
that triggers `n` bundle invocations: one assignment on entry, then
one read of the global per bundle. -/
def callActs (caller : Nat) (fmt : String) (n : Nat) : List Act :=
  Act.set caller fmt :: List.replicate n (Act.use caller)

/-- Execute a sequence of actions against the global, recording for
each read which format the reading call observed. -/
def runCmds (cmd : String) : List Act → List (Nat × String)
  | [] => []
  | Act.set _ f :: rest => runCmds f rest
  | Act.use c :: rest => (c, cmd) :: runCmds cmd rest

/-- Is an action an assignment to the global? -/
def isSet : Act → Bool
  | Act.set _ _ => true
  | _ => false

/-- An interleaving of two action sequences, as produced by the JS
event loop suspending one async call at an await point inside the
other. -/
inductive Interleave : List Act → List Act → List Act → Prop
  | nil : Interleave [] [] []
  | left {x xs ys zs} : Interleave xs ys zs →
      Interleave (x :: xs) ys (x :: zs)
  | right {y xs ys zs} : Interleave xs ys zs →
      Interleave xs (y :: ys) (y :: zs)

/-!  Concrete instances used to evaluate the embedding on inputs. -/

/-- A base environment: all capabilities succeed. -/
def baseEnv : Env where
  fetch := fun u => Except.ok ("raw " ++ u)
  enhance := fun u c => u ++ "#" ++ c
  readability := fun _ d => Except.ok ⟨"Title " ++ d, none, d, none⟩
  tmpName := "/tmp/percollate.html"
  readFile := fun p => "css-of " ++ p
  renderTemplate := fun t its s =>
    t ++ s ++ String.intercalate "|" (its.map (fun a => a.content))
  querySelector := fun _ _ => none
  parseStylesheet := fun _ => []
  parseFirstChild := fun _ => none
  now := 1739
  slug := fun s => s
  pdfRender := fun _ => Except.ok ()
  evalBody := fun s => "body " ++ s
  htmlWriteErr := none
  epubOutcome := Except.ok ()

/-- An environment whose fetch/extraction for each url yields an
article with title, content and url all equal to the url. -/
def envW : Env :=
  { baseEnv with
    fetch := fun u => Except.ok u
    enhance := fun _ c => c
    readability := fun _ d => Except.ok ⟨d, none, d, none⟩ }

/-- The article `envW` produces for a url. -/
def artW (u : String) : Article :=
  { title := u, byline := none, content := u, excerpt := none, url := u }

/-- An environment where fetching the url `"a"` fails. -/
def envFetchFail : Env :=
  { baseEnv with
    fetch := fun u =>
      (if u = "a" then Except.error "ENOTFOUND"
       else Except.ok ("raw " ++ u)) }

/-- An environment where `page.pdf` rejects. -/
def envPdfFail : Env :=
  { baseEnv with pdfRender := fun _ => Except.error "net::ERR" }

/-- An environment where the asynchronous html write fails. -/
def envHtmlFail : Env :=
  { baseEnv with htmlWriteErr := some "EACCES" }

/-- An environment with a non-trivial slugifier: drops `!` and turns
spaces into dashes. -/
def envNamed : Env :=
  { baseEnv with
    slug := fun s =>
      String.mk ((s.data.filter (fun ch => !(ch = '!'))).map
        (fun ch => if ch = ' ' then '-' else ch)) }

/-- A concrete article. -/
def artHello : Article :=
  { title := "Hello World!", byline := none, content := "c", excerpt := none,
    url := "u" }

/-- A stylesheet with one rule for the header-template selector. -/
def astW : Stylesheet :=
  [{ selectors := [".header-template"],
     declarations := [{ property := "margin", value := "0 auto" }] }]

/-- An environment whose composed document has a header template and
whose fragment's first child carries an inline style. -/
def envFrag : Env :=
  { baseEnv with
    querySelector := fun _ sel =>
      (if sel = ".header-template"
       then some "<div style=\x22color: red\x22></div>" else none)
    parseFirstChild := fun frag =>
      (if frag = "<span></span>" then none
       else some { styleAttr := some "color: red" }) }

/-!  Helper lemmas. -/

/-- A successful `cleanup` records the source url on the article. -/
theorem cleanup_ok_url (env : Env) (url : String) (a : Article)
    (h : (cleanup env url).1 = Except.ok a) : a.url = url := by
  cases hf : env.fetch url with
  | error msg => simp [cleanup, hf] at h
  | ok content =>
      cases hr : env.readability classesToPreserve (env.enhance url content) with
      | error msg => simp [cleanup, hf, hr] at h
      | ok parsed =>
          simp only [cleanup, hf, hr, Except.ok.injEq] at h
          rw [← h]
          rfl

/-- `cleanup` never invokes the bundler. -/
theorem cleanup_trace_no_bundle (env : Env) (url : String) :
    ((cleanup env url).2).filter isBundleEv = [] := by
  cases hf : env.fetch url with
  | error msg => simp [cleanup, hf, isBundleEv]
  | ok content =>
      cases hr : env.readability classesToPreserve (env.enhance url content) with
      | error msg => simp [cleanup, hf, hr, isBundleEv]
      | ok parsed => simp [cleanup, hf, hr, isBundleEv]

/-- Every `bundle` invocation appears exactly once in its own trace. -/
theorem bundle_trace_filter (env : Env) (cmd : String)
    (items : List Article) (options : Options) :
    ((bundle env cmd items options).2).filter isBundleEv
      = [Ev.bundleCalled items] := by
  unfold bundle
  dsimp only
  split
  · split <;> simp [isBundleEv]
  · split
    · split <;> simp [isBundleEv]
    · split
      · split <;> simp [isBundleEv]
      · simp [isBundleEv]

/-- In merged mode, when every url's cleanup succeeds, the loop hands
the accumulated articles (in order) to exactly one `bundle` call. -/
theorem processLoop_merged (env : Env) (cmd : String) (options : Options)
    (hind : options.individual = false) :
    ∀ {urls : List String} {arts : List Article},
    List.Forall₂ (fun u a => (cleanup env u).1 = Except.ok a) urls arts →
    ∀ items : List Article,
      (processLoop env cmd options urls items).1
          = (bundle env cmd (items ++ arts) options).1
      ∧ ((processLoop env cmd options urls items).2).filter isBundleEv
          = [Ev.bundleCalled (items ++ arts)] := by
  intro urls arts h
  induction h with
  | nil =>
      intro items
      simp [processLoop, hind, bundle_trace_filter]
  | @cons u a us as hu htail ih =>
      intro items
      have hloop : processLoop env cmd options (u :: us) items
          = ((processLoop env cmd options us (items ++ [a])).1,
             (cleanup env u).2
               ++ (processLoop env cmd options us (items ++ [a])).2) := by
        simp only [processLoop]
        rw [hu]
        simp [hind]
      rw [hloop]
      have hrec := ih (items ++ [a])
      constructor
      · rw [hrec.1]
        simp
      · simp only [List.filter_append, cleanup_trace_no_bundle,
          List.nil_append]
        rw [hrec.2]
        simp

/-- `styleFragmentDiv` with a falsy (empty) declaration string leaves
the fragment's first child unchanged. -/
theorem styleFragmentDiv_empty (d : Option Elem) :
    styleFragmentDiv "" d = d := by
  cases d with
  | none => rfl
  | some el => simp [styleFragmentDiv]

/-!  Claim theorems. -/

/-- C1 (amended): there is no per-URL catch in `generateOutput`; in
individual mode a fetch/extraction failure on a URL is reported by
`cleanup`'s catch block and re-thrown, aborting the loop, so the URLs
after the failing one are never processed and produce no artifacts
(URLs before it have already produced theirs). -/
theorem indiv_failure_propagates (env : Env) (cmd : String)
    (options : Options) (url : String) (rest : List String) (e : Err)
    (hind : options.individual = true)
    (hfail : (cleanup env url).1 = Except.error e) :
    (∀ items, processLoop env cmd options (url :: rest) items
        = (Except.error e, (cleanup env url).2))
    ∧ generateOutput env cmd (url :: rest) options
        = (Except.error e, (cleanup env url).2) := by
  have hp : ∀ items, processLoop env cmd options (url :: rest) items
      = (Except.error e, (cleanup env url).2) := by
    intro items
    simp only [processLoop]
    rw [hfail]
  exact ⟨hp, hp []⟩

/-- Witness for the amended C1 theorem at a concrete environment. -/
theorem indiv_failure_propagates_witness :
    ({ individual := true } : Options).individual = true
    ∧ (cleanup envFetchFail "a").1
        = Except.error (Err.fetchFailed "a" "ENOTFOUND")
    ∧ generateOutput envFetchFail "pdf" ["a", "b"] { individual := true }
        = (Except.error (Err.fetchFailed "a" "ENOTFOUND"),
           (cleanup envFetchFail "a").2) :=
  ⟨rfl, rfl,
    (indiv_failure_propagates envFetchFail "pdf" { individual := true }
      "a" ["b"] (Err.fetchFailed "a" "ENOTFOUND") rfl rfl).2⟩

/-- C1 counterexample: individual mode, two URLs, the first fails to
fetch: the whole batch aborts with that error, and the second URL
never produces an artifact (no bundle invocation happens at all). -/
theorem indiv_failure_aborts_siblings_cx :
    (generateOutput envFetchFail "pdf" ["a", "b"] { individual := true }).1
        = Except.error (Err.fetchFailed "a" "ENOTFOUND")
    ∧ ((generateOutput envFetchFail "pdf" ["a", "b"]
          { individual := true }).2).filter isBundleEv = [] :=
  ⟨rfl, rfl⟩

/-- C2 (amended): the staging browser is closed exactly when the
`bundle` invocation completes without error; on every failure path
(a `page.pdf` rejection, the epub `TypeError` on an empty item list)
the exception propagates before `browser.close()` is reached, so the
browser is left open. -/
theorem browser_closed_iff_bundle_ok (env : Env) (cmd : String)
    (items : List Article) (options : Options) :
    Ev.browserClosed ∈ (bundle env cmd items options).2 ↔
      (bundle env cmd items options).1 = Except.ok () := by
  unfold bundle
  dsimp only
  split
  · split <;> simp
  · split
    · split <;> simp
    · split
      · split <;> simp
      · simp

/-- C2 counterexample: with a rejecting `page.pdf`, `bundle` launches
the browser, fails, and never closes it. -/
theorem browser_leaked_on_render_failure_cx :
    (bundle envPdfFail "pdf" [artHello] {}).1
        = Except.error (Err.renderFailed "net::ERR")
    ∧ Ev.browserLaunched ∈ (bundle envPdfFail "pdf" [artHello] {}).2
    ∧ Ev.browserClosed ∉ (bundle envPdfFail "pdf" [artHello] {}).2 := by
  refine ⟨rfl, by decide, by decide⟩

/-- C4 (amended): an empty url sequence is silently ignored —
`generateOutput` returns at `if (!urls.length) return;` with no error
and no action; the source defines no `NoContent` error at all (the
`Err` type of this embedding mirrors every error the source can
throw). -/
theorem empty_input_silently_ignored (env : Env) (cmd : String)
    (options : Options) :
    generateOutput env cmd [] options = (Except.ok (), []) := rfl

/-- C4 counterexample: the empty input produces a normal return with
no error signalled and nothing done — not a `NoContent` report. -/
theorem empty_input_no_nocontent_cx :
    generateOutput baseEnv "pdf" [] {} = (Except.ok (), []) := rfl

/-- C10: the epub dispatch starts `epub-gen` without awaiting it —
`bundle` is literally independent of the assembly's eventual outcome
(so an assembly failure can never propagate), reports success, closes
the browser, and no file-written event for the epub artifact is ever
observed by the time it returns. -/
theorem epub_fire_and_forget :
    (∀ env cmd items options o,
        bundle { env with epubOutcome := o } cmd items options
          = bundle env cmd items options)
    ∧ (∀ env a rest options,
        (bundle env "epub" (a :: rest) options).1 = Except.ok ()
        ∧ Ev.browserClosed ∈ (bundle env "epub" (a :: rest) options).2
        ∧ Ev.epubStarted (output_path env "epub" (a :: rest) options) a.title
            ∈ (bundle env "epub" (a :: rest) options).2
        ∧ (∀ p c, Ev.fileWritten p c
            ∉ (bundle env "epub" (a :: rest) options).2)) := by
  constructor
  · intro env cmd items options o
    cases env
    rfl
  · intro env a rest options
    have hb : bundle env "epub" (a :: rest) options
        = (Except.ok (),
           [Ev.bundleCalled (a :: rest), Ev.wroteTempFile env.tmpName,
            Ev.browserLaunched]
           ++ [Ev.epubStarted (output_path env "epub" (a :: rest) options)
                a.title, Ev.browserClosed]) := by
      unfold bundle
      dsimp only
      rw [if_neg (by decide), if_pos rfl]
    rw [hb]
    refine ⟨rfl, by simp, by simp, ?_⟩
    intro p c
    simp

/-- C3 (amended): a `page.pdf` failure propagates as `RenderFailed`,
aborting the invocation before any artifact event; but an html write
error is swallowed by the `fs.writeFile` callback — it is only logged
to the console, no file-written event occurs, and `bundle` still
reports success instead of surfacing the failure. -/
theorem render_fatal_html_write_swallowed :
    (∀ env items options msg,
        env.pdfRender (output_path env "pdf" items options)
            = Except.error msg →
        (bundle env "pdf" items options).1
            = Except.error (Err.renderFailed msg)
        ∧ (∀ p, Ev.savedPdf p ∉ (bundle env "pdf" items options).2)
        ∧ (∀ p c, Ev.fileWritten p c ∉ (bundle env "pdf" items options).2))
    ∧ (∀ env items options e, env.htmlWriteErr = some e →
        (bundle env "html" items options).1 = Except.ok ()
        ∧ Ev.consoleLogged e ∈ (bundle env "html" items options).2
        ∧ (∀ p c, Ev.fileWritten p c
            ∉ (bundle env "html" items options).2)) := by
  constructor
  · intro env items options msg hmsg
    have hb : bundle env "pdf" items options
        = (Except.error (Err.renderFailed msg),
           [Ev.bundleCalled items, Ev.wroteTempFile env.tmpName,
            Ev.browserLaunched]) := by
      unfold bundle
      dsimp only
      rw [if_pos rfl, hmsg]
    rw [hb]
    exact ⟨rfl, by intro p; simp, by intro p c; simp⟩
  · intro env items options e he
    have hb : bundle env "html" items options
        = (Except.ok (),
           [Ev.bundleCalled items, Ev.wroteTempFile env.tmpName,
            Ev.browserLaunched]
           ++ [Ev.htmlWriteStarted (output_path env "html" items options),
               Ev.consoleLogged e]
           ++ [Ev.browserClosed]) := by
      unfold bundle
      dsimp only
      rw [if_neg (by decide), if_neg (by decide), if_pos rfl, he]
    rw [hb]
    exact ⟨rfl, by simp, by intro p c; simp⟩

/-- Witness for the amended C3 theorem at concrete environments. -/
theorem render_fatal_html_write_swallowed_witness :
    envPdfFail.pdfRender (output_path envPdfFail "pdf" [artHello] {})
        = Except.error "net::ERR"
    ∧ (bundle envPdfFail "pdf" [artHello] {}).1
        = Except.error (Err.renderFailed "net::ERR")
    ∧ envHtmlFail.htmlWriteErr = some "EACCES"
    ∧ (bundle envHtmlFail "html" [artHello] {}).1 = Except.ok ()
    ∧ Ev.consoleLogged "EACCES"
        ∈ (bundle envHtmlFail "html" [artHello] {}).2 :=
  ⟨rfl,
   (render_fatal_html_write_swallowed.1 envPdfFail [artHello] {}
      "net::ERR" rfl).1,
   rfl,
   (render_fatal_html_write_swallowed.2 envHtmlFail [artHello] {}
      "EACCES" rfl).1,
   (render_fatal_html_write_swallowed.2 envHtmlFail [artHello] {}
      "EACCES" rfl).2.1⟩

/-- C3 counterexample: the html write fails (`EACCES`) yet `bundle`
reports success; the error is only logged, never surfaced. -/
theorem html_write_error_not_propagated_cx :
    (bundle envHtmlFail "html" [artHello] {}).1 = Except.ok ()
    ∧ Ev.consoleLogged "EACCES"
        ∈ (bundle envHtmlFail "html" [artHello] {}).2 :=
  ⟨rfl, by decide⟩

/-- C5: the naming policy — a given (non-empty) output path is used
verbatim; with exactly one article the name is the slug of its title
(defaulting to "Untitled page" when the title is empty) plus the
format extension; with more than one the name is the
percollate-timestamp batch identifier plus the extension; and the pdf
artifact is written at exactly that path. -/
theorem output_naming_policy :
    (∀ env cmd items options p, options.output = some p → p ≠ "" →
        output_path env cmd items options = p)
    ∧ (∀ env cmd options a, jsTruthy options.output = false →
        output_path env cmd [a] options
          = env.slug (if a.title = "" then "Untitled page" else a.title)
              ++ "." ++ cmd)
    ∧ (∀ env cmd options items, jsTruthy options.output = false →
        1 < items.length →
        output_path env cmd items options
          = "percollate-" ++ toString env.now ++ "." ++ cmd)
    ∧ (∀ env items options,
        env.pdfRender (output_path env "pdf" items options) = Except.ok () →
        Ev.savedPdf (output_path env "pdf" items options)
          ∈ (bundle env "pdf" items options).2) := by
  refine ⟨?_, ?_, ?_, ?_⟩
  · intro env cmd items options p hp hne
    simp [output_path, hp, hne]
  · intro env cmd options a htr
    cases ho : options.output with
    | none => simp [output_path, ho, defaultOutputPath]
    | some p =>
        have hpe : p = "" := by
          simp [jsTruthy, ho] at htr
          exact htr
        simp [output_path, ho, hpe, defaultOutputPath]
  · intro env cmd options items htr hlen
    have hdf : defaultOutputPath env cmd items
        = "percollate-" ++ toString env.now ++ "." ++ cmd := by
      match items, hlen with
      | a :: b :: t, _ => rfl
    cases ho : options.output with
    | none => simp [output_path, ho, hdf]
    | some p =>
        have hpe : p = "" := by
          simp [jsTruthy, ho] at htr
          exact htr
        simp [output_path, ho, hpe, hdf]
  · intro env items options hok
    have hb : bundle env "pdf" items options
        = (Except.ok (),
           [Ev.bundleCalled items, Ev.wroteTempFile env.tmpName,
            Ev.browserLaunched]
           ++ [Ev.savedPdf (output_path env "pdf" items options),
               Ev.browserClosed]) := by
      unfold bundle
      dsimp only
      rw [if_pos rfl, hok]
    rw [hb]
    simp

/-- Witness for the naming-policy theorem: a single article titled
"Hello World!" slugs to "Hello-World.pdf"; two articles name the
percollate-timestamp file; an explicit path is used verbatim. -/
theorem output_naming_policy_witness :
    output_path envNamed "pdf" [artHello] {} = "Hello-World.pdf"
    ∧ output_path baseEnv "epub" [artHello, artHello] {}
        = "percollate-1739.epub"
    ∧ output_path baseEnv "html" [artHello] { output := some "out.html" }
        = "out.html" := by
  refine ⟨?_, ?_, ?_⟩
  · have h := output_naming_policy.2.1 envNamed "pdf" {} artHello rfl
    rw [h]
    decide
  · have h := output_naming_policy.2.2.1 baseEnv "epub" {}
        [artHello, artHello] rfl (by decide)
    rw [h]
    decide
  · exact output_naming_policy.1 baseEnv "html" [artHello]
      { output := some "out.html" } "out.html" rfl (by decide)

/-- C7 (amended): for every non-empty url sequence in merged mode
whose per-url cleanups all succeed, exactly one bundle invocation
occurs, its article sequence preserves the supplied url order with
the i-th article originating from the i-th url, and that invocation's
outcome is the batch outcome. -/
theorem merged_mode_order_preserved (env : Env) (cmd : String)
    (options : Options) (urls : List String) (arts : List Article)
    (hind : options.individual = false) (hne : urls ≠ [])
    (hok : List.Forall₂ (fun u a => (cleanup env u).1 = Except.ok a)
      urls arts) :
    ((generateOutput env cmd urls options).2).filter isBundleEv
        = [Ev.bundleCalled arts]
    ∧ List.Forall₂ (fun u a => a.url = u) urls arts
    ∧ (generateOutput env cmd urls options).1
        = (bundle env cmd arts options).1 := by
  obtain ⟨u, rest, rfl⟩ := List.exists_cons_of_ne_nil hne
  have hgen : generateOutput env cmd (u :: rest) options
      = processLoop env cmd options (u :: rest) [] := rfl
  have hp := processLoop_merged env cmd options hind hok []
  rw [hgen]
  refine ⟨?_, ?_, ?_⟩
  · rw [hp.2]
    simp
  · exact hok.imp (fun u a h => cleanup_ok_url env u a h)
  · rw [hp.1]
    simp

/-- Witness for the merged-order theorem: two concrete urls, both
articles handed to a single bundle call in input order. -/
theorem merged_mode_order_preserved_witness :
    ((generateOutput envW "html" ["u1", "u2"] {}).2).filter isBundleEv
        = [Ev.bundleCalled [artW "u1", artW "u2"]]
    ∧ (generateOutput envW "html" ["u1", "u2"] {}).1
        = (bundle envW "html" [artW "u1", artW "u2"] {}).1 := by
  have h := merged_mode_order_preserved envW "html" {} ["u1", "u2"]
      [artW "u1", artW "u2"] rfl (by simp)
      (List.Forall₂.cons rfl (List.Forall₂.cons rfl List.Forall₂.nil))
  exact ⟨h.1, h.2.2⟩

/-- C7 counterexample: for the empty url sequence in merged mode no
bundle invocation occurs and no artifact is written, contradicting
"exactly one artifact is written" for every input sequence. -/
theorem merged_empty_zero_artifacts_cx :
    generateOutput baseEnv "html" [] { individual := false }
        = (Except.ok (), [])
    ∧ ((generateOutput baseEnv "html" [] { individual := false }).2).filter
        isBundleEv = [] :=
  ⟨rfl, rfl⟩

/-- C6: the print-fragment extractor — with no template element the
fragment falls back to the empty span; when both a non-empty
declaration string for the selector and a first-child element exist,
the child's resulting inline style is the extracted declarations
first, then the pre-existing inline style appended after them; when
either is missing, the fragment's first child is left unchanged. -/
theorem print_fragment_extractor_spec :
    (∀ env doc ast sel, env.querySelector doc sel = none →
        (printFragment env doc ast sel).1 = "<span></span>")
    ∧ (∀ env doc ast sel el,
        env.parseFirstChild (printFragment env doc ast sel).1 = some el →
        get_style_attribute_value ast sel ≠ "" →
        (printFragment env doc ast sel).2
            = some { styleAttr := some (mergeStyle
                (get_style_attribute_value ast sel) (el.styleAttr.getD "")) }
        ∧ (∃ pre mid post,
            mergeStyle (get_style_attribute_value ast sel)
                (el.styleAttr.getD "")
              = pre ++ get_style_attribute_value ast sel ++ mid
                  ++ el.styleAttr.getD "" ++ post))
    ∧ (∀ env doc ast sel, get_style_attribute_value ast sel = "" →
        (printFragment env doc ast sel).2
            = env.parseFirstChild (printFragment env doc ast sel).1)
    ∧ (∀ env doc ast sel,
        env.parseFirstChild (printFragment env doc ast sel).1 = none →
        (printFragment env doc ast sel).2 = none) := by
  refine ⟨?_, ?_, ?_, ?_⟩
  · intro env doc ast sel h
    simp [printFragment, fragmentHTML, h]
  · intro env doc ast sel el hchild hne
    constructor
    · have : (printFragment env doc ast sel).2
          = styleFragmentDiv (get_style_attribute_value ast sel)
              (env.parseFirstChild (printFragment env doc ast sel).1) := rfl
      rw [this, hchild]
      simp [styleFragmentDiv, hne]
    · exact ⟨"\n\t\t\t\t", ";\n\t\t\t\t", "\n\t\t\t", rfl⟩
  · intro env doc ast sel h
    have : (printFragment env doc ast sel).2
        = styleFragmentDiv (get_style_attribute_value ast sel)
            (env.parseFirstChild (printFragment env doc ast sel).1) := rfl
    rw [this, h, styleFragmentDiv_empty]
  · intro env doc ast sel h
    have : (printFragment env doc ast sel).2
        = styleFragmentDiv (get_style_attribute_value ast sel)
            (env.parseFirstChild (printFragment env doc ast sel).1) := rfl
    rw [this, h]
    rfl

/-- Witness for the print-fragment theorem: a header template with an
existing inline style `color: red` and a `.header-template` rule
declaring `margin: 0 auto`. -/
theorem print_fragment_extractor_spec_witness :
    envFrag.parseFirstChild
        (printFragment envFrag "doc" astW ".header-template").1
      = some { styleAttr := some "color: red" }
    ∧ get_style_attribute_value astW ".header-template" ≠ ""
    ∧ (printFragment envFrag "doc" astW ".header-template").2
        = some { styleAttr := some (mergeStyle "margin: 0 auto"
            "color: red") } := by
  have h := print_fragment_extractor_spec.2.1 envFrag "doc" astW
      ".header-template" { styleAttr := some "color: red" }
      (by decide) (by decide)
  exact ⟨by decide, by decide, h.1⟩

/-- C8: the Article Extractor Adapter hands Readability exactly the
two class markers `no-href` and `anchor` (and never any other list),
and a successful extraction records the source url on the article. -/
theorem extractor_classes_and_url :
    classesToPreserve = ["no-href", "anchor"]
    ∧ (∀ env url a, (cleanup env url).1 = Except.ok a →
        a.url = url
        ∧ Ev.readabilityCall ["no-href", "anchor"] url
            ∈ (cleanup env url).2)
    ∧ (∀ env url cs u,
        Ev.readabilityCall cs u ∈ (cleanup env url).2 →
        cs = ["no-href", "anchor"]) := by
  refine ⟨rfl, ?_, ?_⟩
  · intro env url a h
    refine ⟨cleanup_ok_url env url a h, ?_⟩
    cases hf : env.fetch url with
    | error msg => simp [cleanup, hf] at h
    | ok content =>
        cases hr : env.readability classesToPreserve
            (env.enhance url content) with
        | error msg => simp [cleanup, hf, hr] at h
        | ok parsed =>
            have hr2 : env.readability ["no-href", "anchor"]
                (env.enhance url content) = Except.ok parsed := hr
            simp [cleanup, hf, hr2, classesToPreserve]
  · intro env url cs u hmem
    cases hf : env.fetch url with
    | error msg => simp [cleanup, hf] at hmem
    | ok content =>
        cases hr : env.readability classesToPreserve
            (env.enhance url content) with
        | error msg =>
            have hr2 : env.readability ["no-href", "anchor"]
                (env.enhance url content) = Except.error msg := hr
            simp [cleanup, hf, hr2, classesToPreserve] at hmem
            exact hmem.1
        | ok parsed =>
            have hr2 : env.readability ["no-href", "anchor"]
                (env.enhance url content) = Except.ok parsed := hr
            simp [cleanup, hf, hr2, classesToPreserve] at hmem
            exact hmem.1

/-- Witness for the extractor-adapter theorem at a concrete url. -/
theorem extractor_classes_and_url_witness :
    (cleanup envW "u1").1 = Except.ok (artW "u1")
    ∧ (artW "u1").url = "u1"
    ∧ Ev.readabilityCall ["no-href", "anchor"] "u1"
        ∈ (cleanup envW "u1").2 :=
  ⟨rfl,
   (extractor_classes_and_url.2.1 envW "u1" (artW "u1") rfl).1,
   (extractor_classes_and_url.2.1 envW "u1" (artW "u1") rfl).2⟩

/-- Reads of the global by a call's bundles never assign it. -/
theorem filter_isSet_replicate_use (n : Nat) (c : Nat) :
    (List.replicate n (Act.use c)).filter isSet = [] := by
  induction n with
  | zero => rfl
  | succ n ih => simp [List.replicate_succ, isSet, ih]

/-- Executing only reads observes the current global unchanged. -/
theorem runCmds_replicate_use (n : Nat) (g : String) (c : Nat) :
    runCmds g (List.replicate n (Act.use c)) = List.replicate n (c, g) := by
  induction n with
  | zero => rfl
  | succ n ih => simp [List.replicate_succ, runCmds, ih]

/-- C9: the target format as module-global shared state — each
top-level call's action sequence assigns the global exactly once, on
entry, and never during the rest of its run; executed sequentially,
every bundle of a call observes that call's own format; the three
top-level operations are `generateOutput` at their fixed format; and
there is an interleaving of two top-level calls in which a bundle of
the first call observes the second call's format. -/
theorem cmd_global_format_state :
    (∀ c f n, callActs c f n
          = Act.set c f :: List.replicate n (Act.use c)
        ∧ ((callActs c f n).filter isSet).length = 1
        ∧ (callActs c f n).tail.filter isSet = [])
    ∧ (∀ c f n cmd0,
        runCmds cmd0 (callActs c f n) = List.replicate n (c, f))
    ∧ (∀ env urls options,
        pdf env urls options = generateOutput env "pdf" urls options
        ∧ epub env urls options = generateOutput env "epub" urls options
        ∧ html env urls options = generateOutput env "html" urls options)
    ∧ (∃ zs, Interleave (callActs 0 "pdf" 1) (callActs 1 "html" 1) zs
        ∧ (0, "html") ∈ runCmds "pdf" zs) := by
  refine ⟨?_, ?_, ?_, ?_⟩
  · intro c f n
    refine ⟨rfl, ?_, ?_⟩
    · simp [callActs, isSet, filter_isSet_replicate_use]
    · simp [callActs, filter_isSet_replicate_use]
  · intro c f n cmd0
    simp [callActs, runCmds, runCmds_replicate_use]
  · intro env urls options
    exact ⟨rfl, rfl, rfl⟩
  · refine ⟨[Act.set 0 "pdf", Act.set 1 "html", Act.use 0, Act.use 1],
      ?_, ?_⟩
    · exact Interleave.left (Interleave.right
        (Interleave.left (Interleave.right Interleave.nil)))
    · decide

end Percollate
